import Mathlib

/-!
Shallow embedding of `src/download_pdf.py` (class `PDFDownloader`):
the download → validate → repair → highlight pipeline.

External behavior (the network, PyMuPDF/`fitz`, `pikepdf`, the
temporary-file allocator) is abstracted into oracle structures; each
embedded function returns its Python return value together with an
explicit trace of the side effects it performs (network fetches, file
writes, document-handle opens/closes, temporary-file creation/deletion).
-/

namespace PDFDownloader

/-- A side effect performed by the pipeline. -/
inductive Eff where
  /-- the network call `session.get(url)` -/
  | fetch (url : String)
  /-- `aiofiles.open(filepath, 'wb'); f.write(content)` -/
  | writeFile (path : String) (content : List Nat)
  /-- a successful `fitz.open(path)` acquiring a document handle -/
  | openDoc (path : String)
  /-- `doc.close()` releasing the currently held handle -/
  | closeDoc
  /-- entry into `_repair_pdf` -/
  | repairCall
  /-- `NamedTemporaryFile(delete=False)` creating the file at `path` -/
  | createTmp (path : String)
  /-- `pdf.save(path)` / `doc.save(path)` writing a document to `path` -/
  | saveFile (path : String)
  /-- `path.unlink()` -/
  | deleteFile (path : String)
deriving DecidableEq, Repr

/-- `b'%PDF'` : the PDF magic marker bytes checked by `_download_pdf`. -/
def pdfMagic : List Nat := [37, 80, 68, 70]

/-- An HTTP response as seen by `_download_pdf`: status code and body. -/
structure Response where
  status : Nat
  content : List Nat
deriving DecidableEq, Repr

/-- The four exit branches of `_download_pdf`, distinguished in the code
by their log messages; the Python return value collapses the three
failure branches to `None` (see `FetchOutcome.toOption`). -/
inductive FetchOutcome where
  | success (path : String)
  | transportError (status : Nat)
  | formatMismatch
  | fetchException
deriving DecidableEq, Repr

/-- The Python return value of `_download_pdf` (`Optional[Path]`). -/
def FetchOutcome.toOption : FetchOutcome → Option String
  | .success p => some p
  | _ => none

/-- `str.split('/')` on the character list: split at every separator,
keeping empty segments, as Python's single-character `split` does. -/
def splitOnChar (c : Char) : List Char → List (List Char)
  | [] => [[]]
  | x :: xs =>
    let r := splitOnChar c xs
    if x = c then [] :: r
    else
      match r with
      | [] => [[x]]
      | y :: ys => (x :: y) :: ys

/-- `'/'.join(segments)`: the inverse gluing used for `Path.parent`. -/
def joinChar (c : Char) : List (List Char) → List Char
  | [] => []
  | [x] => x
  | x :: y :: ys => x ++ c :: joinChar c (y :: ys)

/-- `_get_filename_from_url`: `url.split('/')[-1]`. -/
def getFilenameFromUrl (url : String) : String :=
  ⟨(splitOnChar '/' url.data).getLastD []⟩

/-- `_download_pdf`: fetch one URL.  `resp = none` models the network
call raising an exception; otherwise the oracle supplies the response.
On status 200 with a `%PDF`-prefixed body the content is written to
`target_folder / filename` and that path is returned. -/
def downloadPdf (targetFolder : String) (resp : Option Response) (url : String) :
    FetchOutcome × List Eff :=
  let filename := getFilenameFromUrl url
  let filepath := targetFolder ++ "/" ++ filename
  match resp with
  | none => (.fetchException, [.fetch url])
  | some r =>
    if r.status = 200 then
      if r.content.take 4 = pdfMagic then
        (.success filepath, [.fetch url, .writeFile filepath r.content])
      else
        (.formatMismatch, [.fetch url])
    else
      (.transportError r.status, [.fetch url])

/-- `_download_all`: fetch every URL (`asyncio.gather` keeps input
order) and keep the non-`None` paths. -/
def downloadAll (targetFolder : String) (net : String → Option Response)
    (urls : List String) : List String × List Eff :=
  let results := urls.map (fun u => downloadPdf targetFolder (net u) u)
  (results.filterMap (fun r => r.1.toOption), (results.map Prod.snd).flatten)

/-! ### The annotation loop (`_highlight_words`, lines 178-202)

The behavior of the document under the nested page / word / instance
loops is abstracted into a tree of outcomes: for each page, either
accessing the page raises, or it yields one search outcome per word;
each search either raises or returns a list of instances; annotating
each instance either succeeds or raises. -/

/-- Outcome of `page.add_highlight_annot(inst)` + `set_colors` + `update`
for one found instance. -/
inductive InstR where
  | okI
  | failI
deriving DecidableEq, Repr

/-- Outcome of `page.search_for(word)` for one word on one page. -/
inductive TermR where
  | searchFail
  | searchOk (insts : List InstR)
deriving DecidableEq, Repr

/-- Outcome of `doc[page_num]` plus the per-word loop on that page. -/
inductive PageR where
  | pageFail
  | pageOk (terms : List TermR)
deriving DecidableEq, Repr

/-- The innermost loop body: one instance updates
`(num_highlights, has_errors)`. -/
def stepInst (acc : Nat × Bool) : InstR → Nat × Bool
  | .okI => (acc.1 + 1, acc.2)
  | .failI => (acc.1, true)

/-- The per-word loop body: a failed search records an error, a
successful one folds over its instances. -/
def stepTerm (acc : Nat × Bool) : TermR → Nat × Bool
  | .searchFail => (acc.1, true)
  | .searchOk insts => insts.foldl stepInst acc

/-- The per-page loop body: a failed page access records an error and
`continue`s, a successful one folds over its per-word outcomes. -/
def stepPage (acc : Nat × Bool) : PageR → Nat × Bool
  | .pageFail => (acc.1, true)
  | .pageOk terms => terms.foldl stepTerm acc

/-- The full `for page_num in range(len(doc))` loop, starting from
`num_highlights = 0`, `has_errors = False`. -/
def annotLoop (pages : List PageR) : Nat × Bool :=
  pages.foldl stepPage (0, false)

/-- Highlights contributed by one instance. -/
def instCount : InstR → Nat
  | .okI => 1
  | .failI => 0

/-- Whether one instance records a non-fatal error. -/
def instErr : InstR → Bool
  | .okI => false
  | .failI => true

/-- Highlights contributed by one word on one page. -/
def termCount : TermR → Nat
  | .searchFail => 0
  | .searchOk insts => (insts.map instCount).sum

/-- Whether one word on one page records a non-fatal error. -/
def termErr : TermR → Bool
  | .searchFail => true
  | .searchOk insts => (insts.map instErr).any id

/-- Highlights contributed by one page. -/
def pageCount : PageR → Nat
  | .pageFail => 0
  | .pageOk terms => (terms.map termCount).sum

/-- Whether one page records a non-fatal error. -/
def pageErr : PageR → Bool
  | .pageFail => true
  | .pageOk terms => (terms.map termErr).any id

/-! ### Document / repair oracles and `_highlight_words` -/

/-- Oracle describing how `fitz`, `pikepdf` and the temporary-file
allocator behave for one document over one `_highlight_words` call. -/
structure HLOracle where
  /-- `fitz.open(pdf_path)` succeeds -/
  fitzOpenOk : Bool
  /-- `_ = doc[0]` succeeds on the originally opened document -/
  page0Ok : Bool
  /-- `NamedTemporaryFile(delete=False, suffix='.pdf')` succeeds -/
  tmpCreateOk : Bool
  /-- the path of the allocated temporary file -/
  tmpName : String
  /-- `pikepdf.open(...)` + `pdf.save(repaired_path)` succeed -/
  repairSucceeds : Bool
  /-- `fitz.open(repaired_path)` succeeds -/
  reOpenOk : Bool
  /-- `_ = doc[0]` succeeds on the reopened repaired document -/
  rePage0Ok : Bool
  /-- `range(len(doc))` evaluation succeeds (an unexpected error here is
  caught only by the outermost handler) -/
  lenOk : Bool
  /-- outcomes of the page / word / instance loops -/
  pages : List PageR
  /-- `doc.save(highlighted_path)` succeeds -/
  saveOk : Bool
deriving Repr

/-- `_repair_pdf`: allocate a temporary file, rewrite the PDF into it
with `pikepdf`, return its path; on any exception delete the temporary
file if it was created, and return `None`. -/
def repairPdf (o : HLOracle) : Option String × List Eff :=
  if !o.tmpCreateOk then
    (none, [.repairCall])
  else if o.repairSucceeds then
    (some o.tmpName, [.repairCall, .createTmp o.tmpName, .saveFile o.tmpName])
  else
    (none, [.repairCall, .createTmp o.tmpName, .deleteFile o.tmpName])

/-- Result of the validate-or-repair prefix of `_highlight_words`
(lines 145-173): either a document handle is open on `path` (with
`repaired = true` iff `path` is the temporary repair artifact), or the
call returns `False`. -/
inductive VRes where
  | ok (path : String) (repaired : Bool)
  | failed
deriving DecidableEq, Repr

/-- Lines 145-173 of `_highlight_words`: open and validate the PDF; on
failure close the handle if one was acquired, run `_repair_pdf` once,
and re-validate the repaired file, deleting it if re-validation fails. -/
def validatePhase (o : HLOracle) (pdfPath : String) : VRes × List Eff :=
  if o.fitzOpenOk && o.page0Ok then
    (.ok pdfPath false, [.openDoc pdfPath])
  else
    -- `doc` is bound (and closed) only when `fitz.open` itself succeeded
    let t0 : List Eff :=
      if o.fitzOpenOk then [.openDoc pdfPath, .closeDoc] else []
    match repairPdf o with
    | (none, t1) => (.failed, t0 ++ t1)
    | (some rp, t1) =>
      if o.reOpenOk && o.rePage0Ok then
        (.ok rp true, t0 ++ t1 ++ [.openDoc rp])
      else
        let t2 : List Eff :=
          if o.reOpenOk then [.openDoc rp, .closeDoc] else []
        (.failed, t0 ++ t1 ++ t2 ++ [.deleteFile rp])

/-- `Path.parent` for the paths this embedding builds. -/
def pathParent (p : String) : String :=
  ⟨joinChar '/' (splitOnChar '/' p.data).dropLast⟩

/-- `Path.name`. -/
def pathName (p : String) : String :=
  ⟨(splitOnChar '/' p.data).getLastD []⟩

/-- `pdf_path.parent / f"highlighted_{pdf_path.name}"`. -/
def highlightedPath (p : String) : String :=
  pathParent p ++ "/" ++ "highlighted_" ++ pathName p

/-- Lines 175-221 of `_highlight_words`, given the outcome `v` of the
validate-or-repair prefix and the trace `t` accumulated so far: run the
annotation loops and, if any highlight was added, save the document
under the `highlighted_`-prefixed name derived from the *current* path
(the temporary repair file when the document was repaired). -/
def annotatePhase (o : HLOracle) (v : VRes) (t : List Eff) : Bool × List Eff :=
  match v with
  | .failed => (false, t)
  | .ok path _ =>
    if !o.lenOk then
      -- unexpected error caught by the outer handler: no `doc.close()`
      (false, t)
    else if (annotLoop o.pages).1 > 0 then
      if o.saveOk then
        (true, t ++ [.saveFile (highlightedPath path), .closeDoc])
      else
        -- save failure: `return False` without `doc.close()`
        (false, t)
    else
      (true, t ++ [.closeDoc])

/-- `_highlight_words`: validate (repairing at most once), run the
annotation loops, and if any highlight was added save the document
under the `highlighted_`-prefixed name; returns the Python `bool`
together with the effect trace. -/
def highlightWords (o : HLOracle) (pdfPath : String) (_words : List String) :
    Bool × List Eff :=
  annotatePhase o (validatePhase o pdfPath).1 (validatePhase o pdfPath).2

/-! ### `download_pdfs`: the batch entry point -/

/-- `download_pdfs`: on an empty URL list return `[]` immediately;
otherwise download every URL, then (when both the word list and the
download list are non-empty) run `_highlight_words` on each downloaded
file; the return value is the list of downloaded paths, untouched by
the highlighting phase.  `hl` assigns each downloaded file its
document-behavior oracle. -/
def downloadPdfs (targetFolder : String) (net : String → Option Response)
    (hl : String → HLOracle) (urls : List String) (words : List String) :
    List String × List Eff :=
  if urls.isEmpty then
    ([], [])
  else
    let files := (downloadAll targetFolder net urls).1
    let htrace : List Eff :=
      if !words.isEmpty && !files.isEmpty then
        (files.map (fun f => (highlightWords (hl f) f words).2)).flatten
      else []
    (files, (downloadAll targetFolder net urls).2 ++ htrace)

/-! ### Trace measurements -/

/-- Number of successful document-handle acquisitions in a trace. -/
def opens (t : List Eff) : Nat :=
  t.countP (fun e => match e with | .openDoc _ => true | _ => false)

/-- Number of document-handle releases in a trace. -/
def closes (t : List Eff) : Nat :=
  t.count .closeDoc

/-- Number of `_repair_pdf` invocations recorded in a trace. -/
def repairCalls (t : List Eff) : Nat :=
  t.count .repairCall

/-! ### Concrete scenario instances used in counterexamples and witnesses -/

/-- A document that opens cleanly and needs nothing special. -/
def cleanOracle : HLOracle where
  fitzOpenOk := true
  page0Ok := true
  tmpCreateOk := true
  tmpName := "/tmp/rep.pdf"
  repairSucceeds := true
  reOpenOk := true
  rePage0Ok := true
  lenOk := true
  pages := []
  saveOk := true

/-- A corrupt document whose repair succeeds, whose repaired copy
re-validates, and whose single search term is found and highlighted
once. -/
def repairedOracle : HLOracle :=
  { cleanOracle with
    fitzOpenOk := false
    page0Ok := false
    tmpName := "/tmp/tmp123.pdf"
    pages := [.pageOk [.searchOk [.okI]]] }

/-- A corrupt document whose repaired copy still fails re-validation
(the `Unrepairable` scenario). -/
def unrepairableOracle : HLOracle :=
  { cleanOracle with
    fitzOpenOk := false
    page0Ok := false
    reOpenOk := false
    rePage0Ok := false }

/-- A clean document with one successful highlight whose final
`doc.save` fails. -/
def saveFailOracle : HLOracle :=
  { cleanOracle with
    pages := [.pageOk [.searchOk [.okI]]]
    saveOk := false }

/-- A clean document with one successful highlight, saved
successfully. -/
def highlightOracle : HLOracle :=
  { cleanOracle with pages := [.pageOk [.searchOk [.okI]]] }

end PDFDownloader

namespace PDFDownloader

/-! ### The annotation loop computes independent per-item sums -/

theorem foldl_stepInst_eq (l : List InstR) (n : Nat) (b : Bool) :
    l.foldl stepInst (n, b)
      = (n + (l.map instCount).sum, b || (l.map instErr).any id) := by
  induction l generalizing n b with
  | nil => simp
  | cons x xs ih =>
    cases x with
    | okI => simp [stepInst, instCount, instErr, ih, Nat.add_assoc]
    | failI => simp [stepInst, instCount, instErr, ih]

theorem foldl_stepTerm_eq (l : List TermR) (n : Nat) (b : Bool) :
    l.foldl stepTerm (n, b)
      = (n + (l.map termCount).sum, b || (l.map termErr).any id) := by
  induction l generalizing n b with
  | nil => simp
  | cons x xs ih =>
    cases x with
    | searchFail => simp [stepTerm, termCount, termErr, ih]
    | searchOk insts =>
      simp [stepTerm, termCount, termErr, foldl_stepInst_eq, ih,
        Nat.add_assoc, Bool.or_assoc]

theorem foldl_stepPage_eq (l : List PageR) (n : Nat) (b : Bool) :
    l.foldl stepPage (n, b)
      = (n + (l.map pageCount).sum, b || (l.map pageErr).any id) := by
  induction l generalizing n b with
  | nil => simp
  | cons x xs ih =>
    cases x with
    | pageFail => simp [stepPage, pageCount, pageErr, ih]
    | pageOk terms =>
      simp [stepPage, pageCount, pageErr, foldl_stepTerm_eq, ih,
        Nat.add_assoc, Bool.or_assoc]

theorem annotLoop_eq (ps : List PageR) :
    annotLoop ps = ((ps.map pageCount).sum, (ps.map pageErr).any id) := by
  simpa using foldl_stepPage_eq ps 0 false

/-- C8: a failing page access, a failing term search, or a failing
single-instance annotation is non-fatal: the error is recorded in
`has_errors` and every other page / term / instance still contributes
its highlights, so the document proceeds with whatever highlights
succeeded. -/
theorem C8_item_failures_nonfatal (pre post : List PageR)
    (ts1 ts2 : List TermR) (is1 is2 : List InstR) :
    ((annotLoop (pre ++ .pageFail :: post)).1
        = (annotLoop pre).1 + (annotLoop post).1 ∧
      (annotLoop (pre ++ .pageFail :: post)).2 = true) ∧
    ((annotLoop (pre ++ .pageOk (ts1 ++ .searchFail :: ts2) :: post)).1
        = (annotLoop (pre ++ .pageOk (ts1 ++ ts2) :: post)).1 ∧
      (annotLoop (pre ++ .pageOk (ts1 ++ .searchFail :: ts2) :: post)).2 = true) ∧
    ((annotLoop
        (pre ++ .pageOk (ts1 ++ .searchOk (is1 ++ .failI :: is2) :: ts2) :: post)).1
        = (annotLoop
            (pre ++ .pageOk (ts1 ++ .searchOk (is1 ++ is2) :: ts2) :: post)).1 ∧
      (annotLoop
        (pre ++ .pageOk (ts1 ++ .searchOk (is1 ++ .failI :: is2) :: ts2) :: post)).2
        = true) := by
  refine ⟨⟨?_, ?_⟩, ⟨?_, ?_⟩, ⟨?_, ?_⟩⟩ <;>
    simp [annotLoop_eq, pageCount, pageErr, termCount, termErr, instCount, instErr]

/-! ### Batch-level claims about the fetch phase -/

/-- C9: A batch call with an empty URL list is a no-op, not an error:
`download_pdfs` returns an empty result without raising and performs no
network or filesystem operation (the effect trace is empty). -/
theorem C9_empty_batch_noop (targetFolder : String) (net : String → Option Response)
    (hl : String → HLOracle) (words : List String) :
    downloadPdfs targetFolder net hl [] words = ([], []) := rfl

/-- C7: a payload whose leading bytes do not match `%PDF` is rejected
on the format-mismatch branch and the fetch performs no write at all:
its effect trace is exactly the network call. -/
theorem C7_format_mismatch_no_write (targetFolder url : String) (r : Response)
    (h200 : r.status = 200) (hmagic : r.content.take 4 ≠ pdfMagic) :
    (downloadPdf targetFolder (some r) url).1 = .formatMismatch ∧
    (downloadPdf targetFolder (some r) url).2 = [.fetch url] := by
  simp [downloadPdf, h200, hmagic]

/-- Witness for C7 at a concrete HTML-like payload. -/
theorem C7_format_mismatch_no_write_witness :
    ({ status := 200, content := [60, 104, 116, 109] } : Response).status = 200 ∧
    ({ status := 200, content := [60, 104, 116, 109] } : Response).content.take 4 ≠ pdfMagic ∧
    (downloadPdf "downloads" (some { status := 200, content := [60, 104, 116, 109] })
        "http://host/a.pdf").1 = .formatMismatch := by
  refine ⟨rfl, by decide, ?_⟩
  exact (C7_format_mismatch_no_write "downloads" "http://host/a.pdf"
    { status := 200, content := [60, 104, 116, 109] } rfl (by decide)).1

/-- C2 counterexample: on a successful response with a valid signature,
`_download_pdf` itself writes the payload to the final destination path
— its effect trace contains a storage write, so the Fetcher does have a
side effect beyond the network call. -/
theorem C2_counterexample :
    Eff.writeFile "downloads/a.pdf" pdfMagic
      ∈ (downloadPdf "downloads" (some { status := 200, content := pdfMagic })
          "http://host/a.pdf").2 := by
  decide

/-- C2 amended: `_download_pdf` persists the payload under the final
output name as soon as the signature check passes — before any
validation, repair or annotation has run — so a later pipeline-stage
failure leaves the already-written download in place. -/
theorem C2_fetcher_writes_immediately (targetFolder url : String) (r : Response)
    (h200 : r.status = 200) (hmagic : r.content.take 4 = pdfMagic) :
    (downloadPdf targetFolder (some r) url).1
      = .success (targetFolder ++ "/" ++ getFilenameFromUrl url) ∧
    (downloadPdf targetFolder (some r) url).2
      = [.fetch url,
         .writeFile (targetFolder ++ "/" ++ getFilenameFromUrl url) r.content] := by
  simp [downloadPdf, h200, hmagic]

/-- Witness for the amended C2 at a concrete PDF payload. -/
theorem C2_fetcher_writes_immediately_witness :
    ({ status := 200, content := pdfMagic } : Response).status = 200 ∧
    ({ status := 200, content := pdfMagic } : Response).content.take 4 = pdfMagic ∧
    (downloadPdf "downloads" (some { status := 200, content := pdfMagic })
        "http://host/a.pdf").2
      = [.fetch "http://host/a.pdf", .writeFile "downloads/a.pdf" pdfMagic] := by
  refine ⟨rfl, by decide, ?_⟩
  have h := (C2_fetcher_writes_immediately "downloads" "http://host/a.pdf"
    { status := 200, content := pdfMagic } rfl (by decide)).2
  simpa using h

/-! ### Helper lemmas on the batch functions -/

theorem downloadAll_fst_eq (targetFolder : String) (net : String → Option Response)
    (urls : List String) :
    (downloadAll targetFolder net urls).1
      = urls.filterMap (fun u => ((downloadPdf targetFolder (net u) u).1).toOption) := by
  simp [downloadAll, List.filterMap_map, Function.comp_def]

theorem downloadPdfs_fst_eq (targetFolder : String) (net : String → Option Response)
    (hl : String → HLOracle) (urls words : List String) :
    (downloadPdfs targetFolder net hl urls words).1
      = urls.filterMap (fun u => ((downloadPdf targetFolder (net u) u).1).toOption) := by
  by_cases h : urls.isEmpty
  · rw [List.isEmpty_iff] at h
    subst h
    rfl
  · simp only [downloadPdfs, h, if_neg, Bool.not_eq_true]
    simpa using downloadAll_fst_eq targetFolder net urls

/-- C1 counterexample: a one-URL batch whose fetch fails returns an
empty list, so the per-URL outcome set is smaller than the input URL
list — the batch does not report one outcome per input URL. -/
theorem C1_counterexample :
    ((downloadPdfs "downloads" (fun _ => some { status := 404, content := [] })
        (fun _ => cleanOracle) ["http://host/a.pdf"] []).1).length
      ≠ (["http://host/a.pdf"] : List String).length := by
  decide

/-- C1 amended: `download_pdfs` returns one entry per *successfully
downloaded* URL only — the returned list's length equals the number of
URLs whose fetch succeeded, and is at most (not always equal to) the
length of the input URL list. -/
theorem C1_result_counts_successes (targetFolder : String)
    (net : String → Option Response) (hl : String → HLOracle)
    (urls words : List String) :
    ((downloadPdfs targetFolder net hl urls words).1).length
      = urls.countP (fun u => ((downloadPdf targetFolder (net u) u).1).toOption.isSome) ∧
    ((downloadPdfs targetFolder net hl urls words).1).length ≤ urls.length := by
  rw [downloadPdfs_fst_eq]
  exact ⟨List.length_filterMap_eq_countP .., List.length_filterMap_le ..⟩

theorem downloadPdf_trace_no_deleteFile (targetFolder : String)
    (resp : Option Response) (url q : String) :
    Eff.deleteFile q ∉ (downloadPdf targetFolder resp url).2 := by
  cases resp with
  | none => simp [downloadPdf]
  | some r =>
    by_cases h : r.status = 200 <;>
      by_cases h2 : r.content.take 4 = pdfMagic <;>
        simp [downloadPdf, h, h2]

theorem deleteFile_mem_validatePhase {o : HLOracle} {p f : String}
    (h : Eff.deleteFile f ∈ (validatePhase o p).2) : f = o.tmpName := by
  obtain ⟨fo, p0, tc, tn, rs, ro, rp0, lo, pg, so⟩ := o
  cases fo <;> cases p0 <;> cases tc <;> cases rs <;> cases ro <;> cases rp0 <;>
    simp_all [validatePhase, repairPdf]

theorem mem_annotatePhase_trace {o : HLOracle} {v : VRes} {t : List Eff}
    {e : Eff} (h : e ∈ (annotatePhase o v t).2) :
    e ∈ t ∨ (∃ q, e = Eff.saveFile q) ∨ e = Eff.closeDoc := by
  cases v with
  | failed => exact Or.inl h
  | ok path rep =>
    simp only [annotatePhase] at h
    split at h
    · exact Or.inl h
    · split at h
      · split at h
        · rcases List.mem_append.mp h with h1 | h1
          · exact Or.inl h1
          · simp only [List.mem_cons, List.not_mem_nil, or_false] at h1
            rcases h1 with rfl | rfl
            · exact Or.inr (Or.inl ⟨_, rfl⟩)
            · exact Or.inr (Or.inr rfl)
        · exact Or.inl h
      · rcases List.mem_append.mp h with h1 | h1
        · exact Or.inl h1
        · simp only [List.mem_cons, List.not_mem_nil, or_false] at h1
          exact Or.inr (Or.inr h1)

theorem mem_highlightWords_trace {o : HLOracle} {p : String} {w : List String}
    {e : Eff} (h : e ∈ (highlightWords o p w).2) :
    e ∈ (validatePhase o p).2 ∨ (∃ q, e = Eff.saveFile q) ∨ e = Eff.closeDoc :=
  mem_annotatePhase_trace h

theorem deleteFile_mem_highlightWords {o : HLOracle} {p f : String}
    {w : List String} (h : Eff.deleteFile f ∈ (highlightWords o p w).2) :
    f = o.tmpName := by
  rcases mem_highlightWords_trace h with h1 | ⟨q, h1⟩ | h1
  · exact deleteFile_mem_validatePhase h1
  · exact absurd h1 (by simp)
  · exact absurd h1 (by simp)

theorem mem_downloadPdfs_trace {targetFolder : String}
    {net : String → Option Response} {hl : String → HLOracle}
    {urls words : List String} {e : Eff}
    (h : e ∈ (downloadPdfs targetFolder net hl urls words).2) :
    (∃ u ∈ urls, e ∈ (downloadPdf targetFolder (net u) u).2) ∨
    (∃ f ∈ (downloadPdfs targetFolder net hl urls words).1,
      e ∈ (highlightWords (hl f) f words).2) := by
  rw [downloadPdfs_fst_eq, ← downloadAll_fst_eq]
  by_cases hu : urls.isEmpty
  · rw [List.isEmpty_iff] at hu
    subst hu
    exact absurd h (by simp [downloadPdfs])
  · simp only [downloadPdfs, hu, if_neg, Bool.not_eq_true] at h
    rcases List.mem_append.mp h with h1 | h1
    · left
      simp only [downloadAll, List.mem_flatten, List.mem_map] at h1
      obtain ⟨l, ⟨r, ⟨u, hu1, hu2⟩, hr⟩, hel⟩ := h1
      exact ⟨u, hu1, by rw [hu2]; rw [← hr] at hel; exact hel⟩
    · right
      by_cases hc : !words.isEmpty && !(downloadAll targetFolder net urls).1.isEmpty
      · simp only [hc, if_pos] at h1
        simp only [List.mem_flatten, List.mem_map] at h1
        obtain ⟨l, ⟨f, hf1, hf2⟩, hel⟩ := h1
        exact ⟨f, hf1, by rw [← hf2] at hel; exact hel⟩
      · simp only [hc, if_neg, Bool.not_eq_true] at h1
        exact absurd h1 (List.not_mem_nil e)

/-- C10: `download_pdfs` returns exactly the destination paths whose
download succeeded, in input-URL order, and — provided the temporary
repair files are distinct from the downloaded paths, as
`NamedTemporaryFile` guarantees — no later highlighting, validation or
repair failure ever deletes an already-written downloaded file. -/
theorem C10_returned_paths_stable (targetFolder : String)
    (net : String → Option Response) (hl : String → HLOracle)
    (urls words : List String) :
    (downloadPdfs targetFolder net hl urls words).1
      = urls.filterMap (fun u => ((downloadPdf targetFolder (net u) u).1).toOption) ∧
    ∀ p ∈ (downloadPdfs targetFolder net hl urls words).1,
      (∀ f, (hl f).tmpName ≠ p) →
      Eff.deleteFile p ∉ (downloadPdfs targetFolder net hl urls words).2 := by
  refine ⟨downloadPdfs_fst_eq .., ?_⟩
  intro p _hp hfresh hmem
  rcases mem_downloadPdfs_trace hmem with ⟨u, _, h1⟩ | ⟨f, _, h1⟩
  · exact downloadPdf_trace_no_deleteFile targetFolder (net u) u p h1
  · exact hfresh f (deleteFile_mem_highlightWords h1).symm

/-- Witness for C10: a one-URL batch whose document is corrupt and
unrepairable; the downloaded path is still returned and its file is
never deleted. -/
theorem C10_returned_paths_stable_witness :
    "downloads/a.pdf" ∈ (downloadPdfs "downloads"
        (fun _ => some { status := 200, content := pdfMagic })
        (fun _ => unrepairableOracle) ["http://host/a.pdf"] ["x"]).1 ∧
    Eff.deleteFile "downloads/a.pdf" ∉ (downloadPdfs "downloads"
        (fun _ => some { status := 200, content := pdfMagic })
        (fun _ => unrepairableOracle) ["http://host/a.pdf"] ["x"]).2 :=
  ⟨by decide,
   (C10_returned_paths_stable "downloads"
      (fun _ => some { status := 200, content := pdfMagic })
      (fun _ => unrepairableOracle) ["http://host/a.pdf"] ["x"]).2
    "downloads/a.pdf" (by decide) (fun f => by decide)⟩

/-! ### The repair stage: temporary-file lifecycle and one-shot repair -/

/-- C4: on every exit path of the repair stage no orphaned temporary
artifact remains: when validate-or-repair fails (repair failure or
failed re-validation), every temporary file created was also deleted;
when it succeeds via repair, the temporary file is exactly the returned
payload and has not been deleted. -/
theorem C4_tmp_lifecycle (o : HLOracle) (p : String) :
    ((validatePhase o p).1 = .failed →
       ∀ f, Eff.createTmp f ∈ (validatePhase o p).2 →
         Eff.deleteFile f ∈ (validatePhase o p).2) ∧
    (∀ path, (validatePhase o p).1 = .ok path true →
       path = o.tmpName ∧ Eff.createTmp path ∈ (validatePhase o p).2 ∧
       Eff.deleteFile path ∉ (validatePhase o p).2) := by
  obtain ⟨fo, p0, tc, tn, rs, ro, rp0, lo, pg, so⟩ := o
  cases fo <;> cases p0 <;> cases tc <;> cases rs <;> cases ro <;> cases rp0 <;>
    simp_all [validatePhase, repairPdf]

/-- Witness for C4 on the unrepairable scenario: the temporary file is
created and deleted on the failed-re-validation exit. -/
theorem C4_tmp_lifecycle_witness :
    Eff.deleteFile "/tmp/rep.pdf"
      ∈ (validatePhase unrepairableOracle "downloads/a.pdf").2 :=
  (C4_tmp_lifecycle unrepairableOracle "downloads/a.pdf").1 (by decide)
    "/tmp/rep.pdf" (by decide)

theorem repairCalls_validatePhase (o : HLOracle) (p : String) :
    repairCalls (validatePhase o p).2
      = if o.fitzOpenOk && o.page0Ok then 0 else 1 := by
  obtain ⟨fo, p0, tc, tn, rs, ro, rp0, lo, pg, so⟩ := o
  cases fo <;> cases p0 <;> cases tc <;> cases rs <;> cases ro <;> cases rp0 <;>
    simp_all [validatePhase, repairPdf, repairCalls]

theorem repairCalls_annotatePhase (o : HLOracle) (v : VRes) (t : List Eff) :
    repairCalls (annotatePhase o v t).2 = repairCalls t := by
  cases v with
  | failed => rfl
  | ok path rep =>
    simp only [annotatePhase]
    split
    · rfl
    · split
      · split <;> simp [repairCalls]
      · simp [repairCalls]

theorem validatePhase_ok_repaired {o : HLOracle} {p path : String}
    (h : (validatePhase o p).1 = .ok path true) :
    path = o.tmpName ∧ o.tmpCreateOk = true ∧ o.repairSucceeds = true ∧
    o.reOpenOk = true ∧ o.rePage0Ok = true := by
  obtain ⟨fo, p0, tc, tn, rs, ro, rp0, lo, pg, so⟩ := o
  cases fo <;> cases p0 <;> cases tc <;> cases rs <;> cases ro <;> cases rp0 <;>
    simp_all [validatePhase, repairPdf]

theorem validatePhase_failed_of_revalidation_fails {o : HLOracle} {p : String}
    (h1 : ¬(o.fitzOpenOk = true ∧ o.page0Ok = true))
    (h2 : ¬(o.reOpenOk = true ∧ o.rePage0Ok = true)) :
    (validatePhase o p).1 = .failed := by
  obtain ⟨fo, p0, tc, tn, rs, ro, rp0, lo, pg, so⟩ := o
  cases fo <;> cases p0 <;> cases tc <;> cases rs <;> cases ro <;> cases rp0 <;>
    simp_all [validatePhase, repairPdf]

/-- C5: repair is attempted exactly once for a document whose initial
validation fails and never for one that validates (first conjunct
pair); a repaired document reaches annotation only after its repaired
bytes re-validate (third conjunct); and when re-validation fails the
document's pipeline returns failure, still with exactly one repair
attempt (fourth conjunct). -/
theorem C5_repair_attempted_once (o : HLOracle) (p : String) (w : List String) :
    (o.fitzOpenOk = true → o.page0Ok = true →
       repairCalls (highlightWords o p w).2 = 0) ∧
    (¬(o.fitzOpenOk = true ∧ o.page0Ok = true) →
       repairCalls (highlightWords o p w).2 = 1) ∧
    (∀ path, (validatePhase o p).1 = .ok path true →
       o.reOpenOk = true ∧ o.rePage0Ok = true) ∧
    (¬(o.fitzOpenOk = true ∧ o.page0Ok = true) →
       ¬(o.reOpenOk = true ∧ o.rePage0Ok = true) →
       (highlightWords o p w).1 = false ∧
       repairCalls (highlightWords o p w).2 = 1) := by
  have hrc : repairCalls (highlightWords o p w).2
      = if o.fitzOpenOk && o.page0Ok then 0 else 1 := by
    rw [highlightWords, repairCalls_annotatePhase, repairCalls_validatePhase]
  have honce : ¬(o.fitzOpenOk = true ∧ o.page0Ok = true) →
      repairCalls (highlightWords o p w).2 = 1 := by
    intro h1
    rw [hrc]
    by_cases hf : o.fitzOpenOk = true
    · by_cases hp0 : o.page0Ok = true
      · exact absurd ⟨hf, hp0⟩ h1
      · rw [Bool.not_eq_true] at hp0
        simp [hf, hp0]
    · rw [Bool.not_eq_true] at hf
      simp [hf]
  refine ⟨?_, honce, ?_, ?_⟩
  · intro h1 h2
    rw [hrc]
    simp [h1, h2]
  · intro path h
    exact ⟨(validatePhase_ok_repaired h).2.2.2.1, (validatePhase_ok_repaired h).2.2.2.2⟩
  · intro h1 h2
    have hv : (validatePhase o p).1 = .failed :=
      validatePhase_failed_of_revalidation_fails h1 h2
    refine ⟨?_, honce h1⟩
    rw [highlightWords, hv]
    rfl

/-- Witness for C5 on the unrepairable scenario: exactly one repair
attempt, and the pipeline fails. -/
theorem C5_repair_attempted_once_witness :
    (highlightWords unrepairableOracle "downloads/a.pdf" ["x"]).1 = false ∧
    repairCalls (highlightWords unrepairableOracle "downloads/a.pdf" ["x"]).2 = 1 :=
  (C5_repair_attempted_once unrepairableOracle "downloads/a.pdf" ["x"]).2.2.2
    (by decide) (by decide)

/-! ### Document-handle accounting -/

theorem opens_append (a b : List Eff) : opens (a ++ b) = opens a + opens b := by
  simp [opens]

theorem closes_append (a b : List Eff) : closes (a ++ b) = closes a + closes b := by
  simp [closes]

theorem opens_save_close (q : String) :
    opens [Eff.saveFile q, Eff.closeDoc] = 0 := rfl

theorem closes_save_close (q : String) :
    closes [Eff.saveFile q, Eff.closeDoc] = 1 := rfl

theorem opens_close_only : opens [Eff.closeDoc] = 0 := rfl

theorem closes_close_only : closes [Eff.closeDoc] = 1 := rfl

theorem validatePhase_opens_ok {o : HLOracle} {p path : String} {rep : Bool}
    (h : (validatePhase o p).1 = .ok path rep) :
    opens (validatePhase o p).2 = closes (validatePhase o p).2 + 1 := by
  obtain ⟨fo, p0, tc, tn, rs, ro, rp0, lo, pg, so⟩ := o
  cases fo <;> cases p0 <;> cases tc <;> cases rs <;> cases ro <;> cases rp0 <;>
    simp_all [validatePhase, repairPdf, opens, closes]

/-- C6 counterexample: on the save-failure exit the document handle is
not released — the trace of a clean document with one highlight and a
failing `doc.save` has one successful open and zero closes. -/
theorem C6_counterexample :
    opens (highlightWords saveFailOracle "downloads/a.pdf" ["x"]).2 = 1 ∧
    closes (highlightWords saveFailOracle "downloads/a.pdf" ["x"]).2 = 0 := by
  decide

/-- C6 amended: the document handle is released on normal completion
(whenever `_highlight_words` returns `True`), but it is *not* released
on the save-failure exit nor on an unexpected error inside the
annotation body: there the trace keeps one unmatched open. -/
theorem C6_handle_release_amended (o : HLOracle) (p : String) (w : List String) :
    ((highlightWords o p w).1 = true →
       opens (highlightWords o p w).2 = closes (highlightWords o p w).2) ∧
    (o.fitzOpenOk = true → o.page0Ok = true → o.lenOk = true →
       0 < (annotLoop o.pages).1 → o.saveOk = false →
       opens (highlightWords o p w).2 = closes (highlightWords o p w).2 + 1) ∧
    (o.fitzOpenOk = true → o.page0Ok = true → o.lenOk = false →
       opens (highlightWords o p w).2 = closes (highlightWords o p w).2 + 1) := by
  have hv0 : ∀ h1 : o.fitzOpenOk = true, ∀ h2 : o.page0Ok = true,
      validatePhase o p = (.ok p false, [.openDoc p]) := by
    intro h1 h2
    simp [validatePhase, h1, h2]
  refine ⟨?_, ?_, ?_⟩
  · intro h
    rw [highlightWords] at h ⊢
    cases hv : (validatePhase o p).1 with
    | failed =>
      exact absurd h (by simp [annotatePhase, hv])
    | ok path rep =>
      have hoc : opens (validatePhase o p).2 = closes (validatePhase o p).2 + 1 :=
        validatePhase_opens_ok hv
      by_cases hlen : o.lenOk = true
      · by_cases hnh : (annotLoop o.pages).1 > 0
        · by_cases hs : o.saveOk = true
          · simp only [annotatePhase, hlen, hnh, hs, Bool.not_true, if_pos,
              if_false, Bool.false_eq_true, if_true]
            rw [opens_append, closes_append, hoc, opens_save_close,
              closes_save_close]
          · rw [Bool.not_eq_true] at hs
            exact absurd h (by simp [annotatePhase, hv, hlen, hnh, hs])
        · simp only [annotatePhase, hlen, hnh, Bool.not_true, if_pos,
            if_false, Bool.false_eq_true, if_true]
          rw [opens_append, closes_append, hoc, opens_close_only,
            closes_close_only]
      · rw [Bool.not_eq_true] at hlen
        exact absurd h (by simp [annotatePhase, hv, hlen])
  · intro h1 h2 h3 hnh hs
    rw [highlightWords, hv0 h1 h2]
    simp [annotatePhase, h3, hnh, hs, opens, closes]
  · intro h1 h2 h3
    rw [highlightWords, hv0 h1 h2]
    simp [annotatePhase, h3, opens, closes]

/-- Witness for the amended C6: the save-failure scenario keeps one
unmatched open; a clean completed run is balanced. -/
theorem C6_handle_release_amended_witness :
    opens (highlightWords saveFailOracle "downloads/a.pdf" ["x"]).2
      = closes (highlightWords saveFailOracle "downloads/a.pdf" ["x"]).2 + 1 ∧
    opens (highlightWords highlightOracle "downloads/a.pdf" ["x"]).2
      = closes (highlightWords highlightOracle "downloads/a.pdf" ["x"]).2 :=
  ⟨(C6_handle_release_amended saveFailOracle "downloads/a.pdf" ["x"]).2.1
      rfl rfl rfl (by decide) rfl,
   (C6_handle_release_amended highlightOracle "downloads/a.pdf" ["x"]).1 (by decide)⟩

/-! ### Output naming -/

theorem highlightWords_no_repair_trace (o : HLOracle) (p : String)
    (w : List String) (h1 : o.fitzOpenOk = true) (h2 : o.page0Ok = true)
    (h3 : o.lenOk = true) :
    ((annotLoop o.pages).1 = 0 →
       highlightWords o p w = (true, [.openDoc p, .closeDoc])) ∧
    (0 < (annotLoop o.pages).1 → o.saveOk = true →
       highlightWords o p w
         = (true, [.openDoc p, .saveFile (highlightedPath p), .closeDoc])) := by
  have hv0 : validatePhase o p = (.ok p false, [.openDoc p]) := by
    simp [validatePhase, h1, h2]
  constructor
  · intro hz
    rw [highlightWords, hv0]
    simp [annotatePhase, h3, hz]
  · intro hnh hs
    rw [highlightWords, hv0]
    simp [annotatePhase, h3, hnh, hs]

theorem highlightWords_repaired_trace (o : HLOracle) (p : String)
    (w : List String) (h1 : o.fitzOpenOk = false) (htc : o.tmpCreateOk = true)
    (hrs : o.repairSucceeds = true) (hro : o.reOpenOk = true)
    (hrp : o.rePage0Ok = true) (h3 : o.lenOk = true)
    (hnh : 0 < (annotLoop o.pages).1) (hs : o.saveOk = true) :
    highlightWords o p w
      = (true, [.repairCall, .createTmp o.tmpName, .saveFile o.tmpName,
                .openDoc o.tmpName,
                .saveFile (highlightedPath o.tmpName), .closeDoc]) := by
  have hv0 : validatePhase o p
      = (.ok o.tmpName true,
         [.repairCall, .createTmp o.tmpName, .saveFile o.tmpName,
          .openDoc o.tmpName]) := by
    simp [validatePhase, repairPdf, h1, htc, hrs, hro, hrp]
  rw [highlightWords, hv0]
  simp [annotatePhase, h3, hnh, hs]

/-- C3 counterexample: a corrupt document that is repaired and then
highlighted is saved under a name derived from the *temporary repair
file*, in the temporary directory — not under a name derived from the
source URL's final path segment — even though the run succeeds. -/
theorem C3_counterexample :
    (highlightWords repairedOracle "downloads/a.pdf" ["x"]).1 = true ∧
    Eff.saveFile "/tmp/highlighted_tmp123.pdf"
      ∈ (highlightWords repairedOracle "downloads/a.pdf" ["x"]).2 ∧
    Eff.saveFile "downloads/highlighted_a.pdf"
      ∉ (highlightWords repairedOracle "downloads/a.pdf" ["x"]).2 := by
  decide

/-- C3 amended: for a document that validates without repair the output
path is derived from the source URL's final path segment — no new file
when the highlight counter is zero (the download stays under the
unchanged name), and the fixed `highlighted_` marker prefixed to the
input name when it is nonzero; for a document that went through repair,
the highlighted output is instead saved under the `highlighted_` prefix
of the *temporary repair file's* name. -/
theorem C3_output_path (o : HLOracle) (targetFolder url : String)
    (w : List String) :
    (o.fitzOpenOk = true → o.page0Ok = true → o.lenOk = true →
       ((annotLoop o.pages).1 = 0 →
          (highlightWords o (targetFolder ++ "/" ++ getFilenameFromUrl url) w).1
            = true ∧
          ∀ q, Eff.saveFile q
            ∉ (highlightWords o (targetFolder ++ "/" ++ getFilenameFromUrl url) w).2) ∧
       (0 < (annotLoop o.pages).1 → o.saveOk = true →
          (highlightWords o (targetFolder ++ "/" ++ getFilenameFromUrl url) w).1
            = true ∧
          Eff.saveFile
              (highlightedPath (targetFolder ++ "/" ++ getFilenameFromUrl url))
            ∈ (highlightWords o (targetFolder ++ "/" ++ getFilenameFromUrl url) w).2)) ∧
    (o.fitzOpenOk = false → o.tmpCreateOk = true → o.repairSucceeds = true →
       o.reOpenOk = true → o.rePage0Ok = true → o.lenOk = true →
       0 < (annotLoop o.pages).1 → o.saveOk = true →
       Eff.saveFile (highlightedPath o.tmpName)
         ∈ (highlightWords o (targetFolder ++ "/" ++ getFilenameFromUrl url) w).2) := by
  constructor
  · intro h1 h2 h3
    constructor
    · intro hz
      rw [(highlightWords_no_repair_trace o _ w h1 h2 h3).1 hz]
      simp
    · intro hnh hs
      rw [(highlightWords_no_repair_trace o _ w h1 h2 h3).2 hnh hs]
      simp
  · intro h1 htc hrs hro hrp h3 hnh hs
    rw [highlightWords_repaired_trace o _ w h1 htc hrs hro hrp h3 hnh hs]
    simp

/-- Witness for the amended C3: a clean document saved under the
URL-derived prefixed name, and a repaired one saved under the
temporary-file-derived name. -/
theorem C3_output_path_witness :
    Eff.saveFile "downloads/highlighted_a.pdf"
      ∈ (highlightWords highlightOracle
          ("downloads" ++ "/" ++ getFilenameFromUrl "http://host/a.pdf") ["x"]).2 ∧
    Eff.saveFile "/tmp/highlighted_tmp123.pdf"
      ∈ (highlightWords repairedOracle
          ("downloads" ++ "/" ++ getFilenameFromUrl "http://host/a.pdf") ["x"]).2 := by
  constructor
  · have h := ((C3_output_path highlightOracle "downloads" "http://host/a.pdf"
        ["x"]).1 rfl rfl rfl).2 (by decide) rfl
    have he : highlightedPath ("downloads" ++ "/" ++
        getFilenameFromUrl "http://host/a.pdf") = "downloads/highlighted_a.pdf" := by
      decide
    rw [he] at h
    exact h.2
  · have h := (C3_output_path repairedOracle "downloads" "http://host/a.pdf"
        ["x"]).2 rfl rfl rfl rfl rfl rfl (by decide) rfl
    have he : highlightedPath repairedOracle.tmpName
        = "/tmp/highlighted_tmp123.pdf" := by decide
    rw [he] at h
    exact h

end PDFDownloader
